import Mathlib

set_option maxRecDepth 100000

/-!
Verification of the knight-move pattern generator in src/scripts/knights.py.

The program computes, for each square of an 8x8 board, the 64-bit bitmask
of squares reachable by one knight move, and prints the 64 masks as
hexadecimal literals joined by a comma and a space.

The Python source is embedded shallowly below: Python ints become Nat or
Int, lists become List, and the nested loops become folds over the same
ranges in the same order.
-/

/-- Embeds is_valid_square from the source: y >= 0 and y < 8 and x >= 0 and x < 8. -/
def is_valid_square (y x : Int) : Bool :=
  y ≥ 0 && y < 8 && x ≥ 0 && x < 8

/-- The numeric value encoded by a 0/1 bit list: sum of entry times 2 to the index,
mirroring the sum inside list_to_hex. -/
def listSum (li : List Nat) : Nat :=
  (li.enum.map (fun t => t.2 * 2 ^ t.1)).sum

/-- Embeds list_to_hex from the source: the Python hex literal of the weighted sum.
Nat.toDigits 16 produces lowercase digits with no padding, like Python hex. -/
def list_to_hex (li : List Nat) : String :=
  "0x" ++ String.mk (Nat.toDigits 16 (listSum li))

/-- Embeds itertools.product on two lists, preserving iteration order. -/
def prodOf (l1 l2 : List Int) : List (Int × Int) :=
  l1.flatMap (fun a => l2.map (fun b => (a, b)))

/-- One offset loop of generate_patterns: for each (dy, dx), if the target square
is valid, set the bit at index (y + dy) * 8 + (x + dx) in the pattern list. -/
def applyOffsets (y x : Int) (offs : List (Int × Int)) (pat : List Nat) : List Nat :=
  offs.foldl (fun p d =>
    if is_valid_square (y + d.1) (x + d.2) then
      p.set ((y + d.1) * 8 + (x + d.2)).toNat 1
    else p) pat

/-- The pattern list built for one source square (y, x): start from [0] * 64, then
run the two offset loops in source order, product [-2, 2] [-1, 1] first, then
product [-1, 1] [-2, 2]. -/
def makePattern (y x : Int) : List Nat :=
  applyOffsets y x (prodOf [-1, 1] [-2, 2])
    (applyOffsets y x (prodOf [-2, 2] [-1, 1]) (List.replicate 64 0))

/-- The list of 64 pattern lists, y outer loop 0..7, x inner loop 0..7,
appended in iteration order as in generate_patterns. -/
def patternLists : List (List Nat) :=
  (List.range 8).flatMap (fun y => (List.range 8).map (fun x => makePattern y x))

/-- Embeds generate_patterns from the source: the hex strings of the 64 patterns. -/
def generate_patterns : List String :=
  patternLists.map list_to_hex

/-- The numeric masks underlying generate_patterns, in the same order. -/
def masks : List Nat :=
  patternLists.map listSum

/-- The mask at table index i. -/
def maskAt (i : Nat) : Nat :=
  masks.getD i 0

/-- The mask computed for a single source square: the numeric value of its pattern. -/
def maskForSquare (y x : Int) : Nat :=
  listSum (makePattern y x)

/-- Embeds the driver line: the comma-space join of generate_patterns that is printed. -/
def mainOutput : String :=
  String.intercalate ", " generate_patterns

/-- The eight knight offsets (delta rank, delta file) as enumerated by the spec. -/
def knightOffsets : List (Int × Int) :=
  [(-2, -1), (-2, 1), (2, -1), (2, 1), (-1, -2), (-1, 2), (1, -2), (1, 2)]

/-- Number of set bits of a natural number: count of 1 digits in base 2. -/
def popcount (n : Nat) : Nat :=
  (Nat.toDigits 2 n).count '1'

/-- Splits a character list on the two-character separator comma-space,
matching the split of the printed line on the separator. -/
def splitCS : List Char → List (List Char)
  | [] => [[]]
  | ',' :: ' ' :: rest => [] :: splitCS rest
  | c :: rest =>
    match splitCS rest with
    | [] => [[c]]
    | t :: ts => (c :: t) :: ts

/-- The tokens of the printed line, split on the comma-space separator. -/
def outTokens : List (List Char) :=
  splitCS mainOutput.data

/-- True for lowercase hexadecimal digit characters, 0-9 and a-f. -/
def isHexDigitLC (c : Char) : Bool :=
  c.isDigit || ('a' ≤ c && c ≤ 'f')

/-- True when a token matches 0x followed by one or more lowercase hex digits. -/
def isHexLit (cs : List Char) : Bool :=
  match cs with
  | '0' :: 'x' :: rest => !rest.isEmpty && rest.all isHexDigitLC
  | _ => false

/-- Numeric value of a lowercase hexadecimal digit character. -/
def hexVal (c : Char) : Nat :=
  if c.isDigit then c.toNat - 48 else c.toNat - 87

/-- Parses a digit list as a base 16 numeral. -/
def parseHex (cs : List Char) : Nat :=
  cs.foldl (fun a c => 16 * a + hexVal c) 0

/-- Parses a 0x-prefixed hexadecimal token. -/
def parseHexLit (cs : List Char) : Nat :=
  parseHex (cs.drop 2)

/-- The 64 mask values, computed once; equality with masks is proved below. -/
def masksLit : List Nat :=
  [132096, 329728, 659712, 1319424, 2638848, 5277696, 10489856, 4202496,
   33816580, 84410376, 168886289, 337772578, 675545156, 1351090312, 2685403152, 1075839008,
   8657044482, 21609056261, 43234889994, 86469779988, 172939559976, 345879119952, 687463207072, 275414786112,
   2216203387392, 5531918402816, 11068131838464, 22136263676928, 44272527353856, 88545054707712, 175990581010432, 70506185244672,
   567348067172352, 1416171111120896, 2833441750646784, 5666883501293568, 11333767002587136, 22667534005174272, 45053588738670592, 18049583422636032,
   145241105196122112, 362539804446949376, 725361088165576704, 1450722176331153408, 2901444352662306816, 5802888705324613632, 11533718717099671552, 4620693356194824192,
   288234782788157440, 576469569871282176, 1224997833292120064, 2449995666584240128, 4899991333168480256, 9799982666336960512, 1152939783987658752, 2305878468463689728,
   1128098930098176, 2257297371824128, 4796069720358912, 9592139440717824, 19184278881435648, 38368557762871296, 4679521487814656, 9077567998918656]

/-- The 64 hex strings produced by generate_patterns, computed once. -/
def hexLits : List String :=
  ["0x20400", "0x50800", "0xa1100", "0x142200", "0x284400", "0x508800", "0xa01000", "0x402000",
   "0x2040004", "0x5080008", "0xa110011", "0x14220022", "0x28440044", "0x50880088", "0xa0100010", "0x40200020",
   "0x204000402", "0x508000805", "0xa1100110a", "0x1422002214", "0x2844004428", "0x5088008850", "0xa0100010a0", "0x4020002040",
   "0x20400040200", "0x50800080500", "0xa1100110a00", "0x142200221400", "0x284400442800", "0x508800885000", "0xa0100010a000", "0x402000204000",
   "0x2040004020000", "0x5080008050000", "0xa1100110a0000", "0x14220022140000", "0x28440044280000", "0x50880088500000", "0xa0100010a00000", "0x40200020400000",
   "0x204000402000000", "0x508000805000000", "0xa1100110a000000", "0x1422002214000000", "0x2844004428000000", "0x5088008850000000", "0xa0100010a0000000", "0x4020002040000000",
   "0x400040200000000", "0x800080500000000", "0x1100110a00000000", "0x2200221400000000", "0x4400442800000000", "0x8800885000000000", "0x100010a000000000", "0x2000204000000000",
   "0x4020000000000", "0x8050000000000", "0x110a0000000000", "0x22140000000000", "0x44280000000000", "0x88500000000000", "0x10a00000000000", "0x20400000000000"]

theorem masks_eq : masks = masksLit := by rfl

theorem hexLits_eq : generate_patterns = hexLits := by rfl

theorem outTokens_eq : outTokens = hexLits.map String.data := by rfl

theorem maskForSquare_vals :
    ∀ r < 8, ∀ f < 8,
      maskForSquare (Int.ofNat r) (Int.ofNat f) = masksLit.getD (r * 8 + f) 0 := by
  decide

theorem masksLit_testBit :
    ∀ rf < 64, ∀ i < 64,
      Nat.testBit (masksLit.getD rf 0) i =
        knightOffsets.any (fun d =>
          is_valid_square (Int.ofNat (rf / 8) + d.1) (Int.ofNat (rf % 8) + d.2) &&
            (Int.ofNat i == (Int.ofNat (rf / 8) + d.1) * 8 + (Int.ofNat (rf % 8) + d.2))) := by
  decide

theorem masksLit_lt :
    ∀ rf < 64, masksLit.getD rf 0 < 2 ^ 64 := by
  decide

/-- C1: for every source square (rank, file) with rank and file in [0,8), bit i of the
mask computed for that square is set if and only if square i equals
(rank + dr) * 8 + (file + df) for one of the 8 knight offsets (dr, df) whose target
lies on the board; and the mask is below 2 to the 64, so no other bits are set. -/
theorem maskForSquare_bits :
    ∀ r < 8, ∀ f < 8,
      (∀ i < 64,
        Nat.testBit (maskForSquare (Int.ofNat r) (Int.ofNat f)) i =
          knightOffsets.any (fun d =>
            is_valid_square (Int.ofNat r + d.1) (Int.ofNat f + d.2) &&
              (Int.ofNat i == (Int.ofNat r + d.1) * 8 + (Int.ofNat f + d.2)))) ∧
      maskForSquare (Int.ofNat r) (Int.ofNat f) < 2 ^ 64 := by
  intro r hr f hf
  have hm := maskForSquare_vals r hr f hf
  have h1 : (r * 8 + f) / 8 = r := by omega
  have h2 : (r * 8 + f) % 8 = f := by omega
  constructor
  · intro i hi
    have hb := masksLit_testBit (r * 8 + f) (by omega) i hi
    rw [h1, h2] at hb
    rw [hm]
    exact hb
  · rw [hm]
    exact masksLit_lt (r * 8 + f) (by omega)

theorem maskForSquare_bits_witness :
    Nat.testBit (maskForSquare (Int.ofNat 0) (Int.ofNat 0)) 17 =
      knightOffsets.any (fun d =>
        is_valid_square (Int.ofNat 0 + d.1) (Int.ofNat 0 + d.2) &&
          (Int.ofNat 17 == (Int.ofNat 0 + d.1) * 8 + (Int.ofNat 0 + d.2))) ∧
    maskForSquare (Int.ofNat 0) (Int.ofNat 0) < 2 ^ 64 :=
  ⟨(maskForSquare_bits 0 (by decide) 0 (by decide)).1 17 (by decide),
   (maskForSquare_bits 0 (by decide) 0 (by decide)).2⟩

/-- C2: generate_patterns yields exactly 64 masks, one per square, in row-major order:
the mask at position rank * 8 + file is the mask computed for source square
(rank, file), rank being the outer loop and file the inner loop. -/
theorem generate_patterns_table :
    generate_patterns.length = 64 ∧ masks.length = 64 ∧
      ∀ r < 8, ∀ f < 8,
        masks.getD (r * 8 + f) 0 = maskForSquare (Int.ofNat r) (Int.ofNat f) := by
  refine ⟨by rw [hexLits_eq]; rfl, by rw [masks_eq]; rfl, ?_⟩
  intro r hr f hf
  rw [masks_eq]
  exact (maskForSquare_vals r hr f hf).symm

theorem generate_patterns_table_witness :
    masks.getD 10 0 = maskForSquare (Int.ofNat 1) (Int.ofNat 2) :=
  generate_patterns_table.2.2 1 (by decide) 2 (by decide)

/-- C3: for every pair of integers, unconstrained in sign or magnitude,
is_valid_square returns true if and only if 0 <= rank < 8 and 0 <= file < 8;
it is a total Bool-valued function, so it never fails. -/
theorem is_valid_square_iff :
    ∀ y x : Int, is_valid_square y x = true ↔ (0 ≤ y ∧ y < 8 ∧ 0 ≤ x ∧ x < 8) := by
  intro y x
  simp [is_valid_square, and_assoc, ge_iff_le]

/-- C4 counterexample: the mask at table index 8 does not satisfy the conjunction
of having exactly bits 2, 18, 25 set and popcount 4, because its popcount is 3. -/
theorem edge8_popcount_not_four :
    ¬ (maskAt 8 = 2 ^ 2 + 2 ^ 18 + 2 ^ 25 ∧ popcount (maskAt 8) = 4) := by
  simp only [maskAt, masks_eq]
  decide

/-- C4 amended: the mask at table index 8 (rank 1, file 0) has exactly the bits for
squares 2, 18 and 25 set, and its popcount is 3. -/
theorem edge8_mask_value :
    maskAt 8 = 2 ^ 2 + 2 ^ 18 + 2 ^ 25 ∧ popcount (maskAt 8) = 3 := by
  simp only [maskAt, masks_eq]
  decide

/-- C5: knight reachability is symmetric: for all i and j in [0,64), bit j of the
mask at table index i equals bit i of the mask at table index j. -/
theorem masks_symm :
    ∀ i < 64, ∀ j < 64, Nat.testBit (maskAt i) j = Nat.testBit (maskAt j) i := by
  simp only [maskAt, masks_eq]
  decide

theorem masks_symm_witness :
    Nat.testBit (maskAt 0) 17 = Nat.testBit (maskAt 17) 0 :=
  masks_symm 0 (by decide) 17 (by decide)

/-- C6: self-exclusion: for every i in [0,64), bit i of the mask at table index i
is 0. -/
theorem masks_self_exclusion :
    ∀ i < 64, Nat.testBit (maskAt i) i = false := by
  simp only [maskAt, masks_eq]
  decide

theorem masks_self_exclusion_witness :
    Nat.testBit (maskAt 0) 0 = false :=
  masks_self_exclusion 0 (by decide)

/-- C7: degree bounds: for every i in [0,64), the popcount of the mask at table
index i is at least 2 and at most 8. -/
theorem masks_degree_bounds :
    ∀ i < 64, 2 ≤ popcount (maskAt i) ∧ popcount (maskAt i) ≤ 8 := by
  simp only [maskAt, masks_eq]
  decide

theorem masks_degree_bounds_witness :
    2 ≤ popcount (maskAt 0) ∧ popcount (maskAt 0) ≤ 8 :=
  masks_degree_bounds 0 (by decide)

/-- C8: the mask at table index 0 (rank 0, file 0) equals 0x20400: exactly bits 17
and 10 are set, and every other bit position is unset. -/
theorem corner_mask_value :
    maskAt 0 = 0x20400 ∧
      ∀ j, Nat.testBit (maskAt 0) j = (decide (j = 17) || decide (j = 10)) := by
  have h : maskAt 0 = 132096 := by
    simp only [maskAt, masks_eq]
    decide
  constructor
  · rw [h]
  · intro j
    rw [h]
    rcases Nat.lt_or_ge j 18 with hj | hj
    · interval_cases j <;> decide
    · have hlt : (132096 : Nat) < 2 ^ j :=
        lt_of_lt_of_le (by norm_num) (Nat.pow_le_pow_right (by norm_num) hj)
      rw [Nat.testBit_lt_two_pow hlt]
      have h17 : ¬ (j = 17) := by omega
      have h10 : ¬ (j = 10) := by omega
      simp [h17, h10]

/-- C9: the printed line, split on the comma-space separator, yields exactly 64
tokens, each matching 0x followed by one or more lowercase hex digits, and parsing
token i as hexadecimal yields exactly the mask at table index i. -/
theorem output_round_trip :
    outTokens.length = 64 ∧ outTokens.all isHexLit = true ∧
      ∀ i < 64, parseHexLit (outTokens.getD i []) = masks.getD i 0 := by
  refine ⟨?_, ?_, ?_⟩ <;> simp only [outTokens_eq, masks_eq] <;> decide

theorem output_round_trip_witness :
    parseHexLit (outTokens.getD 0 []) = masks.getD 0 0 :=
  output_round_trip.2.2 0 (by decide)

/-- C10: every mask value produced by generate_patterns is strictly below 2 to the
64: each pattern list has length exactly 64, so each mask is a sum of distinct
powers 2 to the i with i in [0,64) and fits an unsigned 64-bit integer. -/
theorem masks_fit_64bit :
    patternLists.all (fun p => p.length == 64) = true ∧
      ∀ i < 64, masks.getD i 0 < 2 ^ 64 := by
  constructor
  · rfl
  · intro i hi
    rw [masks_eq]
    exact masksLit_lt i hi

theorem masks_fit_64bit_witness :
    masks.getD 0 0 < 2 ^ 64 :=
  masks_fit_64bit.2 0 (by decide)
